import Mathlib

/-!
Shallow embedding of the hyperliquid-bot-platform execution engine
(src/python/bot_engine.py, src/python/scanner_worker.py,
src/python/scanner_api.py).  Python floats are modelled as rationals,
timestamps as rationals (seconds) or naturals (milliseconds), Python
dicts as association lists observed through lookup.  Network and
database effects are passed in as explicit arguments (the fetch result,
the insert outcome), so each routine becomes a pure function of its
inputs, translated branch by branch from the source.
-/

namespace HyperliquidBot

/-- One OHLCV candle as returned by the exchange (fields o,h,l,c,v). -/
structure Candle where
  o : ℚ
  h : ℚ
  l : ℚ
  c : ℚ
  v : ℚ
deriving DecidableEq, Repr

/-- Lookup in an association list, first binding wins (Python dict read). -/
def lookupAssoc {α : Type} (m : List (String × α)) (k : String) : Option α :=
  (m.find? (fun kv => kv.1 == k)).map (fun kv => kv.2)

/-- Python dict assignment, modelled up to lookup: the new binding
shadows and removes any old binding for the same key. -/
def setAssoc {α : Type} (m : List (String × α)) (k : String) (v : α) : List (String × α) :=
  (k, v) :: m.filter (fun kv => kv.1 ≠ k)

/-- Python tail slice lst[-k:]: the last min(k, len) elements. -/
def pyTailSlice {α : Type} (l : List α) (k : ℕ) : List α :=
  l.drop (l.length - k)

/-- Python min(xs, key) over a non-empty list: first element with the
least key (scanner_worker.py calculate_levels uses min with a key). -/
def pyMinBy {α : Type} (key : α → ℚ) : List α → Option α
  | [] => none
  | x :: xs => some (xs.foldl (fun b a => if key a < key b then a else b) x)

/-- TIMEFRAME_WEIGHTS.get(tf, 1) of scanner_worker.py / scanner_api.py. -/
def timeframeWeight (tf : String) : ℕ :=
  if tf = "5m" then 1
  else if tf = "15m" then 2
  else if tf = "30m" then 3
  else if tf = "1h" then 4
  else if tf = "4h" then 6
  else if tf = "12h" then 8
  else if tf = "1d" then 10
  else 1

/-- ZONE_THRESHOLD = 0.005 (0.5% price grouping threshold). -/
def zoneThreshold : ℚ := 0.005

/-- PriceZone of scanner_worker.py, extended with the ghost field
`members` recording every price assigned to the zone (the source keeps
only the counts; `members` is needed to state zone-membership claims and
satisfies totalTouches = members.length by construction). -/
structure PriceZone where
  price : ℚ
  highTouches : ℕ
  lowTouches : ℕ
  totalTouches : ℕ
  members : List ℚ
deriving DecidableEq, Repr

/-- The membership test of find_or_create_zone:
abs(zone.price - price) / current_price <= ZONE_THRESHOLD. -/
def zoneMatches (z : PriceZone) (p currentPrice : ℚ) : Bool :=
  decide (|z.price - p| / currentPrice ≤ zoneThreshold)

/-- Record one touch on a zone (the count increments performed by the
caller of find_or_create_zone, plus the ghost member). -/
def touchZone (z : PriceZone) (p : ℚ) (isHigh : Bool) : PriceZone :=
  { z with
    highTouches := z.highTouches + (if isHigh then 1 else 0)
    lowTouches := z.lowTouches + (if isHigh then 0 else 1)
    totalTouches := z.totalTouches + 1
    members := z.members ++ [p] }

/-- find_or_create_zone followed by the touch increments: the first zone
in insertion order within the threshold is touched; otherwise a fresh
zone at p is appended and touched. -/
def findOrCreateZoneTouch (zones : List PriceZone) (p currentPrice : ℚ)
    (isHigh : Bool) : List PriceZone :=
  match zones with
  | [] => [touchZone ⟨p, 0, 0, 0, []⟩ p isHigh]
  | z :: rest =>
    if zoneMatches z p currentPrice then touchZone z p isHigh :: rest
    else z :: findOrCreateZoneTouch rest p currentPrice isHigh

/-- The zone-building loop of calculate_levels: for each candle with
positive high and low, touch the high zone then the low zone. -/
def buildZones (candles : List Candle) (currentPrice : ℚ) : List PriceZone :=
  candles.foldl
    (fun zs cdl =>
      if cdl.h ≤ 0 ∨ cdl.l ≤ 0 then zs
      else findOrCreateZoneTouch (findOrCreateZoneTouch zs cdl.h currentPrice true)
        cdl.l currentPrice false)
    []

/-- A support/resistance level row as built by calculate_levels. -/
structure Level where
  price : ℚ
  timeframe : String
  type : String
  touches : ℕ
  weight : ℕ
deriving DecidableEq, Repr

/-- Result record of calculate_levels / get_fallback_levels. -/
structure LevelsResult where
  support : Option Level
  resistance : Option Level
  allLevels : List Level
deriving DecidableEq, Repr

/-- get_fallback_levels of scanner_worker.py (identical in
scanner_api.py).  Note the source computes
recent_candles = candles[-max(20, len(candles)):]. -/
def getFallbackLevels (candles : List Candle) (timeframe : String)
    (currentPrice : ℚ) : LevelsResult :=
  if candles.isEmpty then ⟨none, none, []⟩
  else
    let recentCandles := pyTailSlice candles (max 20 candles.length)
    if recentCandles.isEmpty then ⟨none, none, []⟩
    else
      let highs := recentCandles.map (fun cdl => cdl.h)
      let lows := recentCandles.map (fun cdl => cdl.l)
      let recentHigh := highs.foldl max highs.headI
      let recentLow := lows.foldl min lows.headI
      let weight := timeframeWeight timeframe
      let support : Option Level :=
        if recentLow < currentPrice then
          some ⟨recentLow, timeframe, "support", 1, weight⟩
        else none
      let resistance : Option Level :=
        if currentPrice < recentHigh then
          some ⟨recentHigh, timeframe, "resistance", 1, weight⟩
        else none
      ⟨support, resistance, support.toList ++ resistance.toList⟩

/-- calculate_levels of scanner_worker.py (identical in scanner_api.py):
touch-count zones, keep those with at least 2 touches, sort by touches
descending, classify against the reference price, pick closest support
and resistance, falling back to get_fallback_levels. -/
def calculateLevels (candles : List Candle) (timeframe : String)
    (currentPrice : ℚ) : LevelsResult :=
  if candles.isEmpty then getFallbackLevels candles timeframe currentPrice
  else
    let zones := buildZones candles currentPrice
    let significantZones := zones.filter (fun z => 2 ≤ z.totalTouches)
    if significantZones.isEmpty then getFallbackLevels candles timeframe currentPrice
    else
      let sortedZones :=
        List.insertionSort (fun z1 z2 => z2.totalTouches ≤ z1.totalTouches) significantZones
      let allLevels := sortedZones.map (fun z =>
        Level.mk z.price timeframe
          (if z.price < currentPrice then "support" else "resistance")
          z.totalTouches (timeframeWeight timeframe))
      let supportLevels := allLevels.filter (fun lv => lv.price < currentPrice)
      let support := pyMinBy (fun lv => currentPrice - lv.price) supportLevels
      let resistanceLevels := allLevels.filter (fun lv => currentPrice < lv.price)
      let resistance := pyMinBy (fun lv => lv.price - currentPrice) resistanceLevels
      ⟨support, resistance, allLevels⟩

/-- Per-timeframe levels as stored in all_levels_by_timeframe. -/
structure TfLevels where
  support : Option Level
  resistance : Option Level
deriving DecidableEq, Repr

/-- A candidate row built by find_closest_level. -/
structure ClosestCandidate where
  price : ℚ
  timeframe : String
  type : String
  distance : ℚ
  weight : ℕ
deriving DecidableEq, Repr

/-- The candidate list of find_closest_level: for each timeframe in
order, its support (type LOW) then its resistance (type HIGH), with
distance_pct = abs difference over the reference price times 100. -/
def closestCandidates (byTf : List (String × TfLevels)) (currentPrice : ℚ) :
    List ClosestCandidate :=
  byTf.foldl
    (fun acc x =>
      let acc1 := match x.2.support with
        | some s => acc ++ [⟨s.price, x.1, "LOW", |currentPrice - s.price| / currentPrice * 100, s.weight⟩]
        | none => acc
      match x.2.resistance with
        | some r => acc1 ++ [⟨r.price, x.1, "HIGH", |r.price - currentPrice| / currentPrice * 100, r.weight⟩]
        | none => acc1)
    []

/-- The sort key of find_closest_level: Python sorts candidates by the
tuple (distance, -weight), i.e. distance ascending then weight
descending. -/
def candidateLeProp (c1 c2 : ClosestCandidate) : Prop :=
  c1.distance < c2.distance ∨ (c1.distance = c2.distance ∧ c2.weight ≤ c1.weight)

instance : DecidableRel candidateLeProp := fun c1 c2 => by
  unfold candidateLeProp; infer_instance

/-- find_closest_level of scanner_worker.py (identical in
scanner_api.py): stable-sort the candidates on (distance, -weight) and
return the first, or none when there is no candidate.  Python sorting is
stable, so a stable insertion sort under the same total preorder yields
the same list. -/
def findClosestLevel (byTf : List (String × TfLevels)) (currentPrice : ℚ) :
    Option ClosestCandidate :=
  (List.insertionSort candidateLeProp (closestCandidates byTf currentPrice)).head?

/-- candle_cache_ttl = 60 seconds (bot_engine.py BotInstance). -/
def candleCacheTtl : ℚ := 60

/-- The candle-cache key of get_candles_cached: pair, interval, and
start_time rounded down to the minute (integer milliseconds). -/
def cacheKey (pair interval : String) (startTime : ℕ) : String :=
  pair ++ "_" ++ interval ++ "_" ++ toString ((startTime / 60000) * 60000)

/-- In-memory candle cache of a bot: candle_cache and last_candle_fetch. -/
structure CandleCacheState where
  candleCache : List (String × List Candle)
  lastCandleFetch : List (String × ℚ)
deriving DecidableEq, Repr

/-- Outcome of one call to get_candles_cached: the returned value, the
updated cache state, and whether a network fetch was performed. -/
structure CachedFetchOutcome where
  value : Option (List Candle)
  state : CandleCacheState
  fetched : Bool
deriving DecidableEq, Repr

/-- The fetch branch of get_candles_cached: attempt the network call
(its result is the explicit argument fetchResult); on success store and
return, on failure return the stale cached value if any, else none. -/
def getCandlesCachedFetch (st : CandleCacheState) (now : ℚ) (key : String)
    (fetchResult : Option (List Candle)) : CachedFetchOutcome :=
  match fetchResult with
  | some candles =>
    ⟨some candles,
     ⟨setAssoc st.candleCache key candles, setAssoc st.lastCandleFetch key now⟩,
     true⟩
  | none =>
    match lookupAssoc st.candleCache key with
    | some cached => ⟨some cached, st, true⟩
    | none => ⟨none, st, true⟩

/-- get_candles_cached of bot_engine.py: on a cache hit younger than the
TTL return the cached slice without fetching; otherwise fetch (the
scanner_worker.py copy differs only in its TTL constant). -/
def getCandlesCached (st : CandleCacheState) (now : ℚ) (pair interval : String)
    (startTime : ℕ) (fetchResult : Option (List Candle)) : CachedFetchOutcome :=
  match lookupAssoc st.candleCache (cacheKey pair interval startTime) with
  | some cached =>
    if now - ((lookupAssoc st.lastCandleFetch (cacheKey pair interval startTime)).getD 0)
        < candleCacheTtl then
      ⟨some cached, st, false⟩
    else getCandlesCachedFetch st now (cacheKey pair interval startTime) fetchResult
  | none => getCandlesCachedFetch st now (cacheKey pair interval startTime) fetchResult

/-- The strategy configuration fields used by the position lifecycle. -/
structure StrategyConfig where
  maxPositions : ℕ
  positionSize : ℚ
  stopLossPercent : ℚ
  takeProfitPercent : ℚ
deriving DecidableEq, Repr

/-- An open position row as built by open_position. -/
structure Position where
  symbol : String
  side : String
  size : ℚ
  entryPrice : ℚ
  currentPrice : ℚ
  stopLoss : ℚ
  takeProfit : ℚ
  openedAt : ℚ
deriving DecidableEq, Repr

/-- The pure part of open_position: units = position_size / price, stop
loss and take profit from the configured percentages, entry fields from
the fill price and the open time. -/
def openPositionPure (cfg : StrategyConfig) (now : ℚ) (pair side : String)
    (price : ℚ) : Position :=
  let sizeUnits := if 0 < price then cfg.positionSize / price else 0
  let stopLoss :=
    if side = "long" then price * (1 - cfg.stopLossPercent / 100)
    else price * (1 + cfg.stopLossPercent / 100)
  let takeProfit :=
    if side = "long" then price * (1 + cfg.takeProfitPercent / 100)
    else price * (1 - cfg.takeProfitPercent / 100)
  ⟨pair, side, sizeUnits, price, price, stopLoss, takeProfit, now⟩

/-- self.position_cooldown = 60 seconds (bot_engine.py BotInstance). -/
def positionCooldown : ℚ := 60

/-- close_position records last_position_close_time[pair] = now. -/
def recordCloseCooldown (lastCloseTime : List (String × ℚ)) (pair : String)
    (now : ℚ) : List (String × ℚ) :=
  setAssoc lastCloseTime pair now

/-- The break-even step of check_positions: with profit of at least
0.15% and a truthy stop loss still on the loss side of entry, move the
stop to the entry price, but only when the move is larger than 0.0001;
returns the stored stop loss after the step. -/
def breakEvenStep (side : String) (entryPrice stopLoss pnlPct : ℚ) : ℚ :=
  if side = "long" ∧ 0.15 ≤ pnlPct ∧ stopLoss ≠ 0 ∧ stopLoss < entryPrice then
    if 0.0001 < |entryPrice - stopLoss| then entryPrice else stopLoss
  else if side = "short" ∧ 0.15 ≤ pnlPct ∧ stopLoss ≠ 0 ∧ entryPrice < stopLoss then
    if 0.0001 < |entryPrice - stopLoss| then entryPrice else stopLoss
  else stopLoss

/-- The TP/SL exit decision of check_positions: for a long, close with
"Stop Loss" when price is at or under a truthy stop, else with
"Take Profit" when at or over a truthy take profit; mirrored for
shorts. -/
def tpSlDecision (side : String) (currentPrice stopLoss takeProfit : ℚ) :
    Option String :=
  if side = "long" then
    if stopLoss ≠ 0 ∧ currentPrice ≤ stopLoss then some "Stop Loss"
    else if takeProfit ≠ 0 ∧ takeProfit ≤ currentPrice then some "Take Profit"
    else none
  else
    if stopLoss ≠ 0 ∧ stopLoss ≤ currentPrice then some "Stop Loss"
    else if takeProfit ≠ 0 ∧ currentPrice ≤ takeProfit then some "Take Profit"
    else none

/-- The exit decision of run_orderbook_imbalance_v2_strategy: no exit
before min_hold_time; from min_hold_time on, exit a long on imbalance
reversal below 1 - threshold, and exit any position held for at least
2 * min_hold_time. -/
def v2ShouldExit (side : String) (timeInPosition minHoldTime imbalanceRatio
    imbalanceThreshold : ℚ) : Bool :=
  if minHoldTime ≤ timeInPosition then
    if side = "long" ∧ imbalanceRatio < 1 - imbalanceThreshold then true
    else decide (minHoldTime * 2 ≤ timeInPosition)
  else false

/-- Sum of the sizes of the first n levels of one book side
(levels are [price, size] pairs). -/
def sumTopSizes (levels : List (ℚ × ℚ)) (n : ℕ) : ℚ :=
  ((levels.take n).map (fun lv => lv.2)).sum

/-- The per-pair decision of run_orderbook_imbalance_strategy (v1):
depth over the top 10 levels of each side, skip on empty sides or zero
total depth, ratio bid/ask guarded to 0 when ask depth is not positive,
long at best ask above 3.0, short at best bid below 0.33. -/
def runOrderbookImbalancePair (bids asks : List (ℚ × ℚ)) :
    Option (String × ℚ) :=
  if bids.isEmpty ∨ asks.isEmpty then none
  else
    let bidDepth := sumTopSizes bids 10
    let askDepth := sumTopSizes asks 10
    let totalDepth := bidDepth + askDepth
    if totalDepth = 0 then none
    else
      let imbalanceRatio := if 0 < askDepth then bidDepth / askDepth else 0
      if 3 < imbalanceRatio then
        match asks.head? with
        | some a => some ("long", a.1)
        | none => none
      else if imbalanceRatio < 0.33 then
        match bids.head? with
        | some b => some ("short", b.1)
        | none => none
      else none

/-- Per-pair market data consumed by one multi_timeframe_breakout pair
iteration, after the candle fetches have resolved: the mid price (none
when the pair has no price), the last closed low per timeframe, the
average closed-candle volume per timeframe, and the downtrend flag from
the last closed 1h candle. -/
structure MtfPairInput where
  pair : String
  price : Option ℚ
  low15m : ℚ
  low30m : ℚ
  low1h : ℚ
  vol15m : ℚ
  vol30m : ℚ
  vol1h : ℚ
  isDowntrend : Bool
deriving DecidableEq, Repr

/-- calculate_volume_weight: 15m volume over 30m baseline, 1.0 when the
baseline is zero, clamped to [0.5, 3.0] (all three timeframe keys are
always present at the call site, so the baseline is the 30m volume). -/
def calculateVolumeWeight (vol15m vol30m : ℚ) : ℚ :=
  if vol30m = 0 then 1 else max 0.5 (min 3 (vol15m / vol30m))

/-- The dip condition of the multi-timeframe strategy: price at or below
a positive low and within 0.05% of it. -/
def nearLow (currentPrice low : ℚ) : Bool :=
  if 0 < low then decide (currentPrice ≤ low ∧ |currentPrice - low| / low ≤ 0.0005)
  else false

/-- One pair iteration of run_multi_timeframe_breakout_strategy, in
source order: missing price skips; downtrend skips; an already-open
position on the pair or the max_positions_reached flag (computed once
per tick) skips; an active 60 s cooldown on the pair skips; otherwise
the prioritised dip conditions (1h, then 30m, then 15m, each requiring
volume) open a long at the current price. -/
def mtfPairStep (cfg : StrategyConfig) (now : ℚ)
    (lastCloseTime : List (String × ℚ)) (maxPositionsReached : Bool)
    (positions : List Position) (inp : MtfPairInput) : List Position :=
  let hasOpenPosition := positions.any (fun p => p.symbol == inp.pair)
  match inp.price with
  | none => positions
  | some currentPrice =>
    if inp.isDowntrend then positions
    else if hasOpenPosition || maxPositionsReached then positions
    else if now - ((lookupAssoc lastCloseTime inp.pair).getD 0) < positionCooldown then
      positions
    else
      let volumeWeight := calculateVolumeWeight inp.vol15m inp.vol30m
      let hasVolume := decide (0.5 < volumeWeight)
      let reason : Option String :=
        if nearLow currentPrice inp.low1h && hasVolume then some "Buy dip at 1h low"
        else if nearLow currentPrice inp.low30m && hasVolume then some "Buy dip at 30m low"
        else if nearLow currentPrice inp.low15m && hasVolume then some "Buy dip at 15m low"
        else none
      match reason with
      | some _ => positions ++ [openPositionPure cfg now inp.pair "long" currentPrice]
      | none => positions

/-- One tick of run_multi_timeframe_breakout_strategy: the
max_positions_reached flag is computed once against the position count
at the start of the tick, then every pair is processed with it. -/
def runMultiTimeframeBreakoutTick (cfg : StrategyConfig) (now : ℚ)
    (lastCloseTime : List (String × ℚ)) (positions : List Position)
    (inputs : List MtfPairInput) : List Position :=
  let maxPositionsReached := decide (cfg.maxPositions ≤ positions.length)
  inputs.foldl (mtfPairStep cfg now lastCloseTime maxPositionsReached) positions

/-- Per-pair market data consumed by one momentum_breakout pair
iteration: the mid price and the cached 1m candles (none on a failed
fetch). -/
structure MomentumPairInput where
  pair : String
  price : Option ℚ
  candles : Option (List Candle)
deriving DecidableEq, Repr

/-- One pair iteration of run_momentum_breakout_strategy: skip pairs
with an open position, a missing price, or fewer than 5 candles; then
momentum = (current - first close) / first close * 100, long above
+2.0%, short below -2.0%.  The routine reads no cooldown state. -/
def momentumPairStep (cfg : StrategyConfig) (now : ℚ)
    (positions : List Position) (inp : MomentumPairInput) : List Position :=
  if positions.any (fun p => p.symbol == inp.pair) then positions
  else match inp.price with
  | none => positions
  | some currentPrice =>
    match inp.candles with
    | none => positions
    | some candles =>
      if candles.length < 5 then positions
      else match candles.head? with
      | none => positions
      | some first =>
        let momentum := (currentPrice - first.c) / first.c * 100
        if 2 < momentum then
          positions ++ [openPositionPure cfg now inp.pair "long" currentPrice]
        else if momentum < -2 then
          positions ++ [openPositionPure cfg now inp.pair "short" currentPrice]
        else positions

/-- One tick of run_momentum_breakout_strategy: the max_positions guard
returns early once, before the pair loop. -/
def runMomentumBreakoutTick (cfg : StrategyConfig) (now : ℚ)
    (positions : List Position) (inputs : List MomentumPairInput) :
    List Position :=
  if cfg.maxPositions ≤ positions.length then positions
  else inputs.foldl (momentumPairStep cfg now) positions

/-- Outcome of one Supabase insert as observed by open_position: either
the client raised, or it returned a response with an optional error
field, an error-dict shape flag, and a row count len(result.data). -/
inductive InsertOutcome where
  | raised (msg : String)
  | returned (error : Option String) (isErrorDict : Bool) (rows : ℕ)
deriving DecidableEq, Repr

/-- The failure cases open_position treats as a failed insert:
exception, reported error, error-dict response, or no returned data. -/
def InsertOutcome.isFailure : InsertOutcome → Bool
  | .raised _ => true
  | .returned err isErrorDict rows => err.isSome || isErrorDict || rows == 0

/-- A bot_trades row as inserted by open_position. -/
structure BotTrade where
  positionId : String
  symbol : String
  side : String
  size : ℚ
  price : ℚ
deriving DecidableEq, Repr

/-- Observable result of open_position: the returned boolean, the
in-memory positions list, the inserted trade rows, the emitted log rows
as (log_type, message) pairs, and whether the trade insert was ever
executed. -/
structure OpenPositionResult where
  success : Bool
  positions : List Position
  trades : List BotTrade
  logs : List (String × String)
  tradeInsertAttempted : Bool
deriving DecidableEq, Repr

/-- open_position of bot_engine.py with the two database inserts passed
in as outcomes.  A failed position insert logs an error and returns
False before the trade insert; a failed trade insert logs an error and
returns False before the in-memory append; only full success appends
the position, logs the trade row, and returns True. -/
def openPositionModel (cfg : StrategyConfig) (now : ℚ)
    (positions : List Position) (trades : List BotTrade)
    (logs : List (String × String)) (positionId pair side : String)
    (price : ℚ) (positionInsert tradeInsert : InsertOutcome) :
    OpenPositionResult :=
  let newPos := openPositionPure cfg now pair side price
  match positionInsert with
  | .raised msg =>
    ⟨false, positions, trades,
     logs ++ [("error", "Exception inserting position for " ++ pair ++ ": " ++ msg)], false⟩
  | .returned (some msg) _ _ =>
    ⟨false, positions, trades,
     logs ++ [("error", "Failed to insert position for " ++ pair ++ ": " ++ msg)], false⟩
  | .returned none true _ =>
    ⟨false, positions, trades,
     logs ++ [("error", "Failed to insert position for " ++ pair)], false⟩
  | .returned none false 0 =>
    ⟨false, positions, trades,
     logs ++ [("error", "Failed to insert position for " ++ pair ++ " - No data returned")], false⟩
  | .returned none false (_ + 1) =>
    match tradeInsert with
    | .raised msg =>
      ⟨false, positions, trades,
       logs ++ [("error", "Exception inserting trade for " ++ pair ++ ": " ++ msg)], true⟩
    | .returned (some msg) _ _ =>
      ⟨false, positions, trades,
       logs ++ [("error", "Failed to insert trade for " ++ pair ++ ": " ++ msg)], true⟩
    | .returned none _ 0 =>
      ⟨false, positions, trades,
       logs ++ [("error", "Failed to insert trade for " ++ pair ++ " - No data returned")], true⟩
    | .returned none _ (_ + 1) =>
      ⟨true, positions ++ [newPos],
       trades ++ [⟨positionId, pair, if side = "long" then "buy" else "sell", newPos.size, price⟩],
       logs ++ [("trade", "Opened " ++ side ++ " " ++ pair)], true⟩

/-! ## Theorems -/

/-- Configuration used by the concrete v2 scenario. -/
def v2Cfg : StrategyConfig := ⟨2, 100, 1, 2⟩

/-- A long opened by the orderbook_imbalance_v2 strategy at price 100
and time 0 under v2Cfg (stop loss 99, take profit 102). -/
def v2Pos : Position := openPositionPure v2Cfg 0 "BTC" "long" 100

/-- C3 counterexample: a position opened by orderbook_imbalance_v2 at
time 0 with min_hold_time 30 is closed by the TP/SL sweep of
check_positions at elapsed time 5 (price 98.5 at or under the stop 99),
even though the v2 exit logic itself declines to exit before
min_hold_time. -/
theorem v2_position_closed_before_min_hold :
    tpSlDecision "long" 98.5 v2Pos.stopLoss v2Pos.takeProfit = some "Stop Loss"
    ∧ (5:ℚ) < 30
    ∧ v2ShouldExit "long" 5 30 0.1 0.7 = false := by
  refine ⟨?_, by norm_num, ?_⟩
  · norm_num [tpSlDecision, v2Pos, openPositionPure, v2Cfg]
  · norm_num [v2ShouldExit]

/-- C3 (amended): the exit decision of the orderbook_imbalance_v2
strategy itself never fires before min_hold_time and always fires once
the position has been held for at least 2 x min_hold_time; the global
TP/SL sweep, however, can close the position at any time. -/
theorem v2_exit_hold_window (side : String) (t minHold ratio threshold : ℚ)
    (hmh : 0 ≤ minHold) :
    (t < minHold → v2ShouldExit side t minHold ratio threshold = false)
    ∧ (minHold * 2 ≤ t → v2ShouldExit side t minHold ratio threshold = true) := by
  constructor
  · intro ht
    unfold v2ShouldExit
    rw [if_neg (not_le.mpr ht)]
  · intro ht
    unfold v2ShouldExit
    have h1 : minHold ≤ t := le_trans (by linarith) ht
    rw [if_pos h1]
    by_cases hrev : side = "long" ∧ ratio < 1 - threshold
    · rw [if_pos hrev]
    · rw [if_neg hrev]
      simp [ht]

/-- C3 witness: the amended hold-window property at concrete inputs
(no exit at 5 s of a 30 s hold, forced exit at 61 s). -/
theorem v2_exit_hold_window_witness :
    v2ShouldExit "long" 5 30 0.1 0.7 = false
    ∧ v2ShouldExit "long" 61 30 0.9 0.7 = true :=
  ⟨(v2_exit_hold_window "long" 5 30 0.1 0.7 (by norm_num)).1 (by norm_num),
   (v2_exit_hold_window "long" 61 30 0.9 0.7 (by norm_num)).2 (by norm_num)⟩

/-- C4 counterexample: a long with entry 0.08 and stop 0.07992 in
profit of 0.2% satisfies every condition of the claim (stop truthy and
below entry, pnl_pct at least 0.15), yet the break-even step leaves the
stop at 0.07992 because the move 0.00008 is within the 0.0001 update
tolerance, so the stop is not set to the entry price. -/
theorem break_even_skips_small_gap :
    breakEvenStep "long" 0.08 0.07992 0.2 = 0.07992
    ∧ (0.07992:ℚ) < 0.08 ∧ (0.15:ℚ) ≤ 0.2 ∧ (0.07992:ℚ) ≠ 0 := by
  norm_num [breakEvenStep]
  rw [abs_of_nonneg (by norm_num : (0:ℚ) ≤ 1/12500)]
  norm_num

/-- C4 (amended): with profit of at least 0.15%, a truthy stop on the
loss side of entry, and a gap larger than the 0.0001 tolerance, the
break-even step sets the stop exactly to the entry price; and a stop
already on the safe side of entry is never moved back, so once
break-even has fired the stored stop stays at or beyond entry for the
rest of the life of the position. -/
theorem break_even_amended (entry stop pnl : ℚ) :
    (0.15 ≤ pnl → stop ≠ 0 → stop < entry → 0.0001 < |entry - stop| →
      breakEvenStep "long" entry stop pnl = entry)
    ∧ (entry ≤ stop → breakEvenStep "long" entry stop pnl = stop)
    ∧ (0.15 ≤ pnl → stop ≠ 0 → entry < stop → 0.0001 < |entry - stop| →
      breakEvenStep "short" entry stop pnl = entry)
    ∧ (stop ≤ entry → breakEvenStep "short" entry stop pnl = stop) := by
  refine ⟨?_, ?_, ?_, ?_⟩
  · intro h1 h2 h3 h4
    unfold breakEvenStep
    rw [if_pos ⟨rfl, h1, h2, h3⟩, if_pos h4]
  · intro h
    unfold breakEvenStep
    rw [if_neg (fun hc => absurd hc.2.2.2 (not_lt.mpr h)),
        if_neg (fun hc => absurd hc.1 (by decide))]
  · intro h1 h2 h3 h4
    unfold breakEvenStep
    rw [if_neg (fun hc => absurd hc.1 (by decide)),
        if_pos ⟨rfl, h1, h2, h3⟩, if_pos h4]
  · intro h
    unfold breakEvenStep
    rw [if_neg (fun hc => absurd hc.1 (by decide)),
        if_neg (fun hc => absurd hc.2.2.2 (not_lt.mpr h))]

/-- C4 witness: the amended break-even property at concrete inputs
(stop 99 moved exactly to entry 100; stop 100.5 above entry kept). -/
theorem break_even_amended_witness :
    breakEvenStep "long" 100 99 0.2 = 100
    ∧ breakEvenStep "long" 100 100.5 0.2 = 100.5 :=
  ⟨(break_even_amended 100 99 0.2).1 (by norm_num) (by norm_num) (by norm_num) (by norm_num),
   (break_even_amended 100 100.5 0.2).2.1 (by norm_num)⟩

/-- C10: in the v1 orderbook-imbalance strategy, an order book with
non-empty sides whose top-10 ask sizes sum to zero while the top-10 bid
sizes sum to a positive value does not divide by zero: the guarded
ratio is 0, which is below 0.33, so a short entry at the best bid price
is attempted. -/
theorem v1_zero_ask_depth_short (b a : ℚ × ℚ) (bs as1 : List (ℚ × ℚ))
    (hask : sumTopSizes (a :: as1) 10 = 0)
    (hbid : 0 < sumTopSizes (b :: bs) 10) :
    runOrderbookImbalancePair (b :: bs) (a :: as1) = some ("short", b.1) := by
  unfold runOrderbookImbalancePair
  rw [hask]
  rw [if_neg (by simp)]
  rw [if_neg (by rw [add_zero]; exact hbid.ne')]
  rw [if_neg (lt_irrefl 0)]
  rw [if_neg (by norm_num)]
  rw [if_pos (by norm_num)]
  rfl

/-- C10 witness: the zero-ask-depth book [(100, 30)] against [(101, 0)]
yields an attempted short at the best bid 100. -/
theorem v1_zero_ask_depth_short_witness :
    runOrderbookImbalancePair [((100:ℚ), (30:ℚ))] [((101:ℚ), (0:ℚ))]
      = some ("short", 100) :=
  v1_zero_ask_depth_short (100, 30) (101, 0) [] []
    (by norm_num [sumTopSizes]) (by norm_num [sumTopSizes])

/-- A fold over inputs that fixes every state is the identity. -/
theorem foldl_fixed {α β : Type} (f : β → α → β) (l : List α) (b : β)
    (hf : ∀ x ∈ l, ∀ y, f y x = y) : l.foldl f b = b := by
  induction l generalizing b with
  | nil => rfl
  | cons a t ih =>
    rw [List.foldl_cons, hf a (List.mem_cons_self a t)]
    exact ih b (fun x hx y => hf x (List.mem_cons_of_mem a hx) y)

/-- With the max_positions_reached flag set, a multi-timeframe pair
iteration never changes the positions list. -/
theorem mtfPairStep_max_reached (cfg : StrategyConfig) (now : ℚ)
    (lct : List (String × ℚ)) (ps : List Position) (inp : MtfPairInput) :
    mtfPairStep cfg now lct true ps inp = ps := by
  rcases inp with ⟨pair, price, l15, l30, l1h, v15, v30, v1h, dt⟩
  cases price with
  | none => rfl
  | some q => simp [mtfPairStep]

/-- A multi-timeframe pair iteration either leaves the positions list
unchanged or appends exactly one long on its own pair. -/
theorem mtfPairStep_cases (cfg : StrategyConfig) (now : ℚ)
    (lct : List (String × ℚ)) (mr : Bool) (ps : List Position)
    (inp : MtfPairInput) :
    mtfPairStep cfg now lct mr ps inp = ps
    ∨ ∃ q, mtfPairStep cfg now lct mr ps inp
        = ps ++ [openPositionPure cfg now inp.pair "long" q] := by
  rcases inp with ⟨pair, price, l15, l30, l1h, v15, v30, v1h, dt⟩
  cases price with
  | none => exact Or.inl rfl
  | some q =>
    simp only [mtfPairStep]
    split
    · exact Or.inl rfl
    · split
      · exact Or.inl rfl
      · split
        · exact Or.inl rfl
        · split
          · exact Or.inr ⟨q, rfl⟩
          · exact Or.inl rfl

/-- With an active cooldown on its pair, a multi-timeframe pair
iteration never changes the positions list. -/
theorem mtfPairStep_cooldown (cfg : StrategyConfig) (now : ℚ)
    (lct : List (String × ℚ)) (mr : Bool) (ps : List Position)
    (inp : MtfPairInput)
    (h : now - ((lookupAssoc lct inp.pair).getD 0) < positionCooldown) :
    mtfPairStep cfg now lct mr ps inp = ps := by
  rcases inp with ⟨pair, price, l15, l30, l1h, v15, v30, v1h, dt⟩
  cases price with
  | none => rfl
  | some q => simp [mtfPairStep, h]

/-- Configuration of the concrete multi-timeframe scenario:
max_positions = 1. -/
def mtfCfg : StrategyConfig := ⟨1, 100, 1, 2⟩

/-- Pair AAA exactly at its lows with confirming volume, no downtrend. -/
def mtfInpA : MtfPairInput := ⟨"AAA", some 100, 100, 100, 100, 1.1, 1, 1, false⟩

/-- Pair BBB exactly at its lows with confirming volume, no downtrend. -/
def mtfInpB : MtfPairInput := ⟨"BBB", some 100, 100, 100, 100, 1.1, 1, 1, false⟩

/-- C1 counterexample: with max_positions = 1 and two pairs both
signalling a dip entry, one multi-timeframe tick starting from zero
open positions opens a position on each pair, ending with 2 open
positions, strictly above max_positions: the max_positions_reached
flag is computed once per tick and not refreshed after an open. -/
theorem mtf_tick_exceeds_max_positions :
    ((runMultiTimeframeBreakoutTick mtfCfg 1000 [] [] [mtfInpA, mtfInpB]).map
      (fun p => p.symbol)) = ["AAA", "BBB"]
    ∧ mtfCfg.maxPositions = 1 := by
  constructor
  · norm_num [runMultiTimeframeBreakoutTick, mtfPairStep, mtfCfg, mtfInpA, mtfInpB,
      openPositionPure, calculateVolumeWeight, nearLow, lookupAssoc, positionCooldown,
      min_def, max_def, (show ¬(("AAA":String) = "BBB") by decide)]
  · rfl

/-- C1 (amended): entries are suppressed only against the position
count observed when the tick begins: a multi-timeframe tick that starts
with at least max_positions open positions opens nothing, but a tick
that starts below the cap can open one position per pair and exceed
max_positions within the tick. -/
theorem mtf_tick_no_entries_at_cap (cfg : StrategyConfig) (now : ℚ)
    (lct : List (String × ℚ)) (positions : List Position)
    (inputs : List MtfPairInput)
    (h : cfg.maxPositions ≤ positions.length) :
    runMultiTimeframeBreakoutTick cfg now lct positions inputs = positions := by
  unfold runMultiTimeframeBreakoutTick
  rw [decide_eq_true h]
  exact foldl_fixed _ inputs positions
    (fun inp _ ps => mtfPairStep_max_reached cfg now lct ps inp)

/-- A position already open under mtfCfg (used to instantiate the cap). -/
def mtfPos0 : Position := openPositionPure mtfCfg 0 "AAA" "long" 100

/-- C1 witness: with one open position and max_positions = 1, the tick
opens nothing even though both pairs signal entries. -/
theorem mtf_tick_no_entries_at_cap_witness :
    runMultiTimeframeBreakoutTick mtfCfg 1000 [] [mtfPos0] [mtfInpA, mtfInpB]
      = [mtfPos0] :=
  mtf_tick_no_entries_at_cap mtfCfg 1000 [] [mtfPos0] [mtfInpA, mtfInpB]
    (by norm_num [mtfCfg])

/-- Configuration of the concrete momentum scenario. -/
def momCfg : StrategyConfig := ⟨2, 100, 1, 2⟩

/-- Five 1m candles whose first close is 100. -/
def momCandles : List Candle :=
  [⟨0,0,0,100,0⟩, ⟨0,0,0,100,0⟩, ⟨0,0,0,100,0⟩, ⟨0,0,0,100,0⟩, ⟨0,0,0,100,0⟩]

/-- Pair AAA at price 103 with momentum +3%. -/
def momInp : MomentumPairInput := ⟨"AAA", some 103, some momCandles⟩

/-- C2 counterexample: a close on symbol AAA is recorded at time 100,
yet the momentum_breakout tick at time 101 opens a new position on AAA
(the momentum pair iteration consumes no cooldown state at all), so the
interval between the close and the next open is 1 s, far below 60 s. -/
theorem momentum_reentry_within_cooldown :
    recordCloseCooldown [] "AAA" 100 = [("AAA", 100)]
    ∧ ((runMomentumBreakoutTick momCfg 101 [] [momInp]).map
        (fun p => (p.symbol, p.openedAt))) = [("AAA", 101)]
    ∧ (101:ℚ) - 100 < 60 := by
  refine ⟨rfl, ?_, by norm_num⟩
  norm_num [runMomentumBreakoutTick, momentumPairStep, momCfg, momInp, momCandles,
    openPositionPure]

/-- C2 (amended): only the multi_timeframe_breakout strategy enforces
the 60 s per-symbol cooldown: while now minus the recorded close time
of a symbol is below 60 s, a multi-timeframe tick opens no position on
that symbol (its positions on that symbol are exactly the ones it
started with); other strategies such as momentum_breakout never read
the cooldown and can re-enter immediately. -/
theorem mtf_tick_respects_cooldown (cfg : StrategyConfig) (now : ℚ)
    (lct : List (String × ℚ)) (positions : List Position)
    (inputs : List MtfPairInput) (sym : String)
    (h : now - ((lookupAssoc lct sym).getD 0) < positionCooldown) :
    (runMultiTimeframeBreakoutTick cfg now lct positions inputs).filter
        (fun p => p.symbol == sym)
      = positions.filter (fun p => p.symbol == sym) := by
  unfold runMultiTimeframeBreakoutTick
  generalize decide (cfg.maxPositions ≤ positions.length) = mr
  induction inputs generalizing positions with
  | nil => rfl
  | cons inp t ih =>
    rw [List.foldl_cons]
    rw [ih (mtfPairStep cfg now lct mr positions inp)]
    by_cases hps : inp.pair = sym
    · rw [mtfPairStep_cooldown cfg now lct mr positions inp (hps ▸ h)]
    · rcases mtfPairStep_cases cfg now lct mr positions inp with heq | ⟨q, heq⟩
      · rw [heq]
      · rw [heq, List.filter_append]
        have hsym : (openPositionPure cfg now inp.pair "long" q).symbol = inp.pair := rfl
        simp [hsym, hps]

/-- C2 witness: with the close of AAA recorded at time 95 and the tick
at time 100, the dip signal on AAA is suppressed by the cooldown. -/
theorem mtf_tick_respects_cooldown_witness :
    (runMultiTimeframeBreakoutTick mtfCfg 100 [("AAA", 95)] [] [mtfInpA]).filter
        (fun p => p.symbol == "AAA")
      = ([] : List Position).filter (fun p => p.symbol == "AAA") :=
  mtf_tick_respects_cooldown mtfCfg 100 [("AAA", 95)] [] [mtfInpA] "AAA"
    (by norm_num [lookupAssoc, positionCooldown, List.find?])

/-- Looking up the key just written by setAssoc yields the new value. -/
theorem lookupAssoc_setAssoc_self {α : Type} (m : List (String × α))
    (k : String) (v : α) : lookupAssoc (setAssoc m k v) k = some v := by
  simp [lookupAssoc, setAssoc]

/-- C7: whenever the position-row insert fails (exception, reported
error, error-dict response, or no returned data), open_position returns
False, the trade insert is never executed, no trade row is added, the
in-memory positions list is unchanged, and exactly one error log is
emitted. -/
theorem open_position_insert_failure_aborts (cfg : StrategyConfig) (now : ℚ)
    (positions : List Position) (trades : List BotTrade)
    (logs : List (String × String)) (pid pair side : String) (price : ℚ)
    (posIns tradeIns : InsertOutcome)
    (h : posIns.isFailure = true) :
    (openPositionModel cfg now positions trades logs pid pair side price
        posIns tradeIns).success = false
    ∧ (openPositionModel cfg now positions trades logs pid pair side price
        posIns tradeIns).positions = positions
    ∧ (openPositionModel cfg now positions trades logs pid pair side price
        posIns tradeIns).trades = trades
    ∧ (openPositionModel cfg now positions trades logs pid pair side price
        posIns tradeIns).tradeInsertAttempted = false
    ∧ (openPositionModel cfg now positions trades logs pid pair side price
        posIns tradeIns).logs.length = logs.length + 1
    ∧ ((openPositionModel cfg now positions trades logs pid pair side price
        posIns tradeIns).logs.getLast?).map Prod.fst = some "error" := by
  rcases posIns with msg | ⟨err, isDict, rows⟩
  · simp [openPositionModel, List.getLast?_append]
  · rcases err with _ | msg
    · cases isDict
      · rcases rows with _ | n
        · simp [openPositionModel, List.getLast?_append]
        · simp [InsertOutcome.isFailure] at h
      · simp [openPositionModel, List.getLast?_append]
    · simp [openPositionModel, List.getLast?_append]

/-- C7 witness: a raised exception on the position insert aborts with
the in-memory list and trade table untouched and one error log. -/
theorem open_position_insert_failure_aborts_witness :
    (openPositionModel momCfg 0 [] [] [] "p1" "BTC" "long" 100
        (.raised "db down") (.returned none false 1)).success = false
    ∧ (openPositionModel momCfg 0 [] [] [] "p1" "BTC" "long" 100
        (.raised "db down") (.returned none false 1)).positions = []
    ∧ (openPositionModel momCfg 0 [] [] [] "p1" "BTC" "long" 100
        (.raised "db down") (.returned none false 1)).trades = []
    ∧ (openPositionModel momCfg 0 [] [] [] "p1" "BTC" "long" 100
        (.raised "db down") (.returned none false 1)).tradeInsertAttempted = false
    ∧ (openPositionModel momCfg 0 [] [] [] "p1" "BTC" "long" 100
        (.raised "db down") (.returned none false 1)).logs.length
        = ([] : List (String × String)).length + 1
    ∧ ((openPositionModel momCfg 0 [] [] [] "p1" "BTC" "long" 100
        (.raised "db down") (.returned none false 1)).logs.getLast?).map Prod.fst
        = some "error" :=
  open_position_insert_failure_aborts momCfg 0 [] [] [] "p1" "BTC" "long" 100
    (.raised "db down") (.returned none false 1) rfl

/-- C8: the candle cache returns a value fetched within the TTL without
a network call and without state change; on a miss (absent key or
expired entry) a successful fetch is stored under the minute-rounded
key and returned; and when the fetch fails, the previously cached value
for the key is returned if one exists, otherwise none is surfaced, with
the state unchanged. -/
theorem get_candles_cached_spec (st : CandleCacheState) (now : ℚ)
    (pair interval : String) (startTime : ℕ)
    (fetchResult : Option (List Candle)) :
    (∀ v, lookupAssoc st.candleCache (cacheKey pair interval startTime) = some v →
      now - ((lookupAssoc st.lastCandleFetch (cacheKey pair interval startTime)).getD 0)
          < candleCacheTtl →
      getCandlesCached st now pair interval startTime fetchResult = ⟨some v, st, false⟩)
    ∧ (∀ c, fetchResult = some c →
      (lookupAssoc st.candleCache (cacheKey pair interval startTime) = none ∨
       ¬(now - ((lookupAssoc st.lastCandleFetch (cacheKey pair interval startTime)).getD 0)
          < candleCacheTtl)) →
      (getCandlesCached st now pair interval startTime fetchResult).value = some c
      ∧ (getCandlesCached st now pair interval startTime fetchResult).fetched = true
      ∧ lookupAssoc (getCandlesCached st now pair interval startTime fetchResult).state.candleCache
          (cacheKey pair interval startTime) = some c
      ∧ lookupAssoc (getCandlesCached st now pair interval startTime fetchResult).state.lastCandleFetch
          (cacheKey pair interval startTime) = some now)
    ∧ (fetchResult = none →
      (lookupAssoc st.candleCache (cacheKey pair interval startTime) = none ∨
       ¬(now - ((lookupAssoc st.lastCandleFetch (cacheKey pair interval startTime)).getD 0)
          < candleCacheTtl)) →
      getCandlesCached st now pair interval startTime fetchResult
        = ⟨lookupAssoc st.candleCache (cacheKey pair interval startTime), st, true⟩) := by
  refine ⟨?_, ?_, ?_⟩
  · intro v hv ht
    unfold getCandlesCached
    rw [hv]
    dsimp only
    rw [if_pos ht]
  · intro c hfetch hmiss
    have hbranch : getCandlesCached st now pair interval startTime fetchResult
        = getCandlesCachedFetch st now (cacheKey pair interval startTime) fetchResult := by
      unfold getCandlesCached
      rcases hmiss with hm | hm
      · rw [hm]
      · cases hc : lookupAssoc st.candleCache (cacheKey pair interval startTime) with
        | none => rfl
        | some cached =>
          dsimp only
          rw [if_neg hm]
    rw [hbranch]
    unfold getCandlesCachedFetch
    rw [hfetch]
    exact ⟨rfl, rfl, lookupAssoc_setAssoc_self _ _ _, lookupAssoc_setAssoc_self _ _ _⟩
  · intro hfetch hmiss
    have hbranch : getCandlesCached st now pair interval startTime fetchResult
        = getCandlesCachedFetch st now (cacheKey pair interval startTime) fetchResult := by
      unfold getCandlesCached
      rcases hmiss with hm | hm
      · rw [hm]
      · cases hc : lookupAssoc st.candleCache (cacheKey pair interval startTime) with
        | none => rfl
        | some cached =>
          dsimp only
          rw [if_neg hm]
    rw [hbranch]
    unfold getCandlesCachedFetch
    rw [hfetch]
    cases hc : lookupAssoc st.candleCache (cacheKey pair interval startTime) with
    | none => rfl
    | some cached => rfl

/-- One cached candle slice used by the cache scenario. -/
def cacheCandle : Candle := ⟨1, 2, 1, 2, 3⟩

/-- A cache state holding one entry fetched at time 10. -/
def st8 : CandleCacheState :=
  ⟨[(cacheKey "BTC" "1m" 61000, [cacheCandle])],
   [(cacheKey "BTC" "1m" 61000, 10)]⟩

/-- C8 witness: at time 50 (40 s after the fetch, inside the 60 s TTL)
the cached slice is returned with no fetch and no state change. -/
theorem get_candles_cached_spec_witness :
    getCandlesCached st8 50 "BTC" "1m" 61000 none
      = ⟨some [cacheCandle], st8, false⟩ :=
  (get_candles_cached_spec st8 50 "BTC" "1m" 61000 none).1 [cacheCandle]
    (by simp [st8, lookupAssoc])
    (by norm_num [st8, lookupAssoc, candleCacheTtl])

/-- The candidate order is reflexive. -/
theorem candidateLeProp_refl (c : ClosestCandidate) : candidateLeProp c c :=
  Or.inr ⟨rfl, le_refl _⟩

instance : IsTotal ClosestCandidate candidateLeProp := ⟨by
  intro a b
  rcases lt_trichotomy a.distance b.distance with h | h | h
  · exact Or.inl (Or.inl h)
  · rcases le_total b.weight a.weight with hw | hw
    · exact Or.inl (Or.inr ⟨h, hw⟩)
    · exact Or.inr (Or.inr ⟨h.symm, hw⟩)
  · exact Or.inr (Or.inl h)⟩

instance : IsTrans ClosestCandidate candidateLeProp := ⟨by
  intro a b c hab hbc
  rcases hab with h1 | ⟨h1, w1⟩
  · rcases hbc with h2 | ⟨h2, w2⟩
    · exact Or.inl (h1.trans h2)
    · exact Or.inl (lt_of_lt_of_le h1 (le_of_eq h2))
  · rcases hbc with h2 | ⟨h2, w2⟩
    · exact Or.inl (lt_of_le_of_lt (le_of_eq h1) h2)
    · exact Or.inr ⟨h1.trans h2, le_trans w2 w1⟩⟩

/-- C9: find_closest_level returns none exactly when there is no
candidate, and any returned candidate is one of the collected
support/resistance candidates and is minimal among all of them under
the order distance ascending then weight descending. -/
theorem find_closest_level_minimal (byTf : List (String × TfLevels)) (P : ℚ) :
    (findClosestLevel byTf P = none ↔ closestCandidates byTf P = [])
    ∧ (∀ c, findClosestLevel byTf P = some c →
        c ∈ closestCandidates byTf P
        ∧ ∀ c2 ∈ closestCandidates byTf P, candidateLeProp c c2) := by
  constructor
  · unfold findClosestLevel
    rw [List.head?_eq_none_iff]
    constructor
    · intro h
      have hperm := List.perm_insertionSort candidateLeProp (closestCandidates byTf P)
      rw [h] at hperm
      exact hperm.symm.eq_nil
    · intro h
      rw [h]
      rfl
  · intro c hc
    have hperm := List.perm_insertionSort candidateLeProp (closestCandidates byTf P)
    have hsorted := List.sorted_insertionSort candidateLeProp (closestCandidates byTf P)
    unfold findClosestLevel at hc
    cases hs : List.insertionSort candidateLeProp (closestCandidates byTf P) with
    | nil => rw [hs] at hc; exact absurd hc (by simp)
    | cons hd tl =>
      rw [hs] at hc hperm hsorted
      have hhd : hd = c := by simpa using hc
      subst hhd
      constructor
      · exact hperm.mem_iff.mp (List.mem_cons_self _ _)
      · intro c2 hc2
        have hmem2 : c2 ∈ hd :: tl := hperm.mem_iff.mpr hc2
        rcases List.mem_cons.mp hmem2 with rfl | hmem2
        · exact candidateLeProp_refl _
        · exact (List.sorted_cons.mp hsorted).1 c2 hmem2

/-- One scanner row with a single 1h support level at 99. -/
def tf9 : List (String × TfLevels) :=
  [("1h", ⟨some ⟨99, "1h", "support", 2, 4⟩, none⟩)]

/-- The candidate built from tf9 at reference price 100. -/
def c9cand : ClosestCandidate := ⟨99, "1h", "LOW", 1, 4⟩

/-- C9 witness: on the concrete row the returned candidate is in the
candidate list and minimal. -/
theorem find_closest_level_minimal_witness :
    c9cand ∈ closestCandidates tf9 100
    ∧ ∀ c2 ∈ closestCandidates tf9 100, candidateLeProp c9cand c2 :=
  (find_closest_level_minimal tf9 100).2 c9cand
    (by norm_num [findClosestLevel, closestCandidates, tf9, c9cand,
      List.insertionSort, List.orderedInsert])

/-- Every price assigned to a zone lies within the threshold of the
zone pivot (scaled by the reference price). -/
def zoneMembersOk (P : ℚ) (z : PriceZone) : Prop :=
  ∀ p ∈ z.members, |z.price - p| ≤ zoneThreshold * P

/-- Touching a zone with a price within the scaled threshold preserves
the member bound. -/
theorem zoneMembersOk_touchZone {P : ℚ} {z : PriceZone} {p : ℚ} (isHigh : Bool)
    (hz : zoneMembersOk P z) (hp : |z.price - p| ≤ zoneThreshold * P) :
    zoneMembersOk P (touchZone z p isHigh) := by
  intro q hq
  simp only [touchZone, List.mem_append, List.mem_singleton] at hq
  rcases hq with hq | rfl
  · exact hz q hq
  · exact hp

/-- find_or_create_zone preserves the member bound on every zone. -/
theorem findOrCreateZoneTouch_ok {P : ℚ} (hP : 0 < P) (p : ℚ) (isHigh : Bool) :
    ∀ zones : List PriceZone, (∀ z ∈ zones, zoneMembersOk P z) →
      ∀ z ∈ findOrCreateZoneTouch zones p P isHigh, zoneMembersOk P z := by
  intro zones
  induction zones with
  | nil =>
    intro _ z hz
    simp only [findOrCreateZoneTouch, List.mem_singleton] at hz
    subst hz
    intro q hq
    simp only [touchZone, List.nil_append, List.mem_singleton] at hq
    subst hq
    show |q - q| ≤ zoneThreshold * P
    rw [sub_self, abs_zero]
    have : (0:ℚ) < zoneThreshold := by unfold zoneThreshold; norm_num
    positivity
  | cons z0 rest ih =>
    intro hall z hz
    simp only [findOrCreateZoneTouch] at hz
    by_cases hm : zoneMatches z0 p P = true
    · rw [if_pos hm] at hz
      rcases List.mem_cons.mp hz with rfl | hz2
      · refine zoneMembersOk_touchZone isHigh (hall z0 (List.mem_cons_self _ _)) ?_
        have hmp : |z0.price - p| / P ≤ zoneThreshold := of_decide_eq_true hm
        exact (div_le_iff₀ hP).mp hmp
      · exact hall z (List.mem_cons_of_mem _ hz2)
    · rw [if_neg hm] at hz
      rcases List.mem_cons.mp hz with rfl | hz2
      · exact hall z (List.mem_cons_self _ _)
      · exact ih (fun w hw => hall w (List.mem_cons_of_mem _ hw)) z hz2

/-- Every zone produced by the candle scan satisfies the member bound. -/
theorem buildZones_ok {P : ℚ} (hP : 0 < P) (candles : List Candle) :
    ∀ z ∈ buildZones candles P, zoneMembersOk P z := by
  unfold buildZones
  suffices h : ∀ zs : List PriceZone, (∀ z ∈ zs, zoneMembersOk P z) →
      ∀ z ∈ candles.foldl
        (fun zs cdl =>
          if cdl.h ≤ 0 ∨ cdl.l ≤ 0 then zs
          else findOrCreateZoneTouch (findOrCreateZoneTouch zs cdl.h P true)
            cdl.l P false) zs, zoneMembersOk P z by
    exact h [] (by simp)
  induction candles with
  | nil => intro zs h z hz; exact h z hz
  | cons cdl rest ih =>
    intro zs h
    rw [List.foldl_cons]
    apply ih
    by_cases hneg : cdl.h ≤ 0 ∨ cdl.l ≤ 0
    · simpa [hneg] using h
    · have h1 := findOrCreateZoneTouch_ok hP cdl.h true zs h
      have h2 := findOrCreateZoneTouch_ok hP cdl.l false _ h1
      simpa [hneg] using h2

/-- C6 (amended): for a positive reference price, the pivot of every
zone trivially matches its own zone (reflexivity), every price assigned
to a zone is within 0.5% of the zone pivot (scaled by the reference
price), and hence any two prices assigned to the same zone are within
1% of each other, twice the zone threshold, which is the tight bound. -/
theorem zone_touches_bounded (candles : List Candle) (P : ℚ) (hP : 0 < P) :
    ∀ z ∈ buildZones candles P,
      zoneMatches z z.price P = true
      ∧ (∀ p ∈ z.members, |z.price - p| ≤ zoneThreshold * P)
      ∧ (∀ p1 ∈ z.members, ∀ p2 ∈ z.members, |p1 - p2| ≤ 2 * zoneThreshold * P) := by
  intro z hz
  have hok := buildZones_ok hP candles z hz
  refine ⟨?_, hok, ?_⟩
  · apply decide_eq_true
    rw [sub_self, abs_zero, zero_div]
    unfold zoneThreshold
    norm_num
  · intro p1 h1 p2 h2
    have e1 := hok p1 h1
    have e2 := hok p2 h2
    have habs : |p1 - p2| ≤ |z.price - p1| + |z.price - p2| := by
      calc |p1 - p2| = |(p1 - z.price) + (z.price - p2)| := by rw [sub_add_sub_cancel]
        _ ≤ |p1 - z.price| + |z.price - p2| := abs_add _ _
        _ = |z.price - p1| + |z.price - p2| := by rw [abs_sub_comm]
    linarith

/-- The two candles of the zone-threshold counterexample. -/
def c6Candles : List Candle := [⟨0, 100.5, 100, 0, 0⟩, ⟨0, 101, 100.8, 0, 0⟩]

/-- C6 counterexample: at reference price 100 the candle scan groups
the touch prices 100.5, 100, 101, 100.8 into one zone (pivot 100.5),
that zone has 4 touches and is therefore emitted, yet the touch pair
(100, 101) violates the claimed pairwise bound:
abs(100 - 101) / 100 = 1% is above the 0.5% zone threshold. -/
theorem zone_pairwise_exceeds_threshold :
    (buildZones c6Candles 100).map (fun z => z.members) = [[100.5, 100, 101, 100.8]]
    ∧ (buildZones c6Candles 100).map (fun z => z.totalTouches) = [4]
    ∧ ¬(|(100:ℚ) - 101| / 100 ≤ zoneThreshold) := by
  refine ⟨?_, ?_, ?_⟩
  · norm_num [buildZones, c6Candles, findOrCreateZoneTouch, zoneMatches, touchZone,
      zoneThreshold, abs_eq_max_neg, max_def]
  · norm_num [buildZones, c6Candles, findOrCreateZoneTouch, zoneMatches, touchZone,
      zoneThreshold, abs_eq_max_neg, max_def]
  · norm_num [zoneThreshold, abs_eq_max_neg, max_def]

/-- The emitted zone of the counterexample, for instantiating the
amended bound. -/
def c6HeadZone : PriceZone := ⟨100.5, 2, 2, 4, [100.5, 100, 101, 100.8]⟩

/-- C6 witness: the amended member bound applied to the concrete zone:
the touch 101 is within 0.5 of the pivot 100.5. -/
theorem zone_touches_bounded_witness :
    |((100.5:ℚ)) - 101| ≤ zoneThreshold * 100 :=
  ((zone_touches_bounded c6Candles 100 (by norm_num)) c6HeadZone
    (by norm_num [buildZones, c6Candles, findOrCreateZoneTouch, zoneMatches,
      touchZone, zoneThreshold, c6HeadZone, abs_eq_max_neg, max_def])).2.1 101
    (by norm_num [c6HeadZone])

/-- A candle whose low is x and high is x + 1 (spacing the 42 touch
prices more than 0.5% of the reference price 150 apart, so that no
zone ever reaches 2 touches). -/
def mkDipCandle (x : ℚ) : Candle := ⟨0, x + 1, x, 0, 0⟩

/-- Twenty-one closed candles; the oldest one holds the global minimum
low 100, while the 20 most recent lows start at 102. -/
def c5Candles : List Candle :=
  [mkDipCandle 100, mkDipCandle 102, mkDipCandle 104, mkDipCandle 106,
   mkDipCandle 108, mkDipCandle 110, mkDipCandle 112, mkDipCandle 114,
   mkDipCandle 116, mkDipCandle 118, mkDipCandle 120, mkDipCandle 122,
   mkDipCandle 124, mkDipCandle 126, mkDipCandle 128, mkDipCandle 130,
   mkDipCandle 132, mkDipCandle 134, mkDipCandle 136, mkDipCandle 138,
   mkDipCandle 140]

set_option maxHeartbeats 4000000 in
/-- C5: on 21 candles none of whose zones reaches 2 touches, the
fallback of the levels algorithm returns support 100, the low of the
oldest candle, even though every one of the 20 most recent candles has
its low above 100: the slice candles[-max(20, len(candles)):] always
selects the whole list, so candles older than the last 20 do influence
the fallback levels, contradicting the function docstring
"Fallback to recent 20-candle high/low" (the slip is max for min). -/
theorem fallback_levels_uses_all_candles :
    (buildZones c5Candles 150).all (fun z => z.totalTouches < 2) = true
    ∧ (calculateLevels c5Candles "1h" 150).support
        = some ⟨100, "1h", "support", 1, 4⟩
    ∧ ∀ cdl ∈ pyTailSlice c5Candles 20, (100:ℚ) < cdl.l := by
  refine ⟨?_, ?_, ?_⟩
  · norm_num [buildZones, c5Candles, mkDipCandle, findOrCreateZoneTouch,
      zoneMatches, touchZone, zoneThreshold, abs_eq_max_neg, max_def]
  · norm_num [calculateLevels, buildZones, c5Candles, mkDipCandle,
      findOrCreateZoneTouch, zoneMatches, touchZone, zoneThreshold,
      getFallbackLevels, pyTailSlice, timeframeWeight,
      abs_eq_max_neg, max_def, min_def,
      (show ¬(("1h":String) = "5m") by decide),
      (show ¬(("1h":String) = "15m") by decide),
      (show ¬(("1h":String) = "30m") by decide)]
  · norm_num [pyTailSlice, c5Candles, mkDipCandle]

end HyperliquidBot
